import Mathlib

/-!
Verification of the VESC serial-protocol core (`vesc_driver`): frame
construction, CRC placement, outgoing command encoders, incoming payload
decoders, and the stream-deframer scan loop.

Bytes are modelled as `Nat` values (always kept below 256 where they come
from the wire); byte buffers are `List Nat`.  Machine-integer conversions
(`static_cast<uint32_t>` of a signed value, `static_cast<int32_t>` of a
raw 32-bit pattern) are modelled explicitly with `% 2^32` arithmetic on
`Int`/`Nat`.  The `double` inputs of the outgoing encoders are modelled as
exact rationals; `static_cast<int32_t>(x)` on a floating value truncates
toward zero, which on rationals is the floor for non-negative values and
the ceiling for negative ones.
-/

namespace VescDriver

/-- Modelled from the spec: `VescFrame::VESC_MIN_FRAME_SIZE` is declared in
the header `vesc_packet.hpp`, which is not part of the sources here.  The
spec invariant `total frame length = header(2 or 3) + payload + CRC(2) +
terminator(1)` together with the small-frame allocation
`VESC_MIN_FRAME_SIZE + payload_size` forces the value 5 (the length of a
small frame with an empty payload). -/
def VESC_MIN_FRAME_SIZE : Nat := 5

/-- Start-of-frame marker for small frames (written at `vesc_packet.cpp:23`,
tested in `vesc_interface.cpp:68`). -/
def VESC_SOF_VAL_SMALL_FRAME : Nat := 2

/-- Start-of-frame marker for large frames (written at `vesc_packet.cpp:29`,
tested in `vesc_interface.cpp:69`). -/
def VESC_SOF_VAL_LARGE_FRAME : Nat := 3

/-- Terminator byte, written as the last byte of every frame
(`vesc_packet.cpp:36`). -/
def VESC_EOF_VAL : Nat := 3

/-- Maximum payload size accepted by the frame constructor
(`assert(payload_size <= 1024)` at `vesc_packet.cpp:18`). -/
def VESC_MAX_PAYLOAD_SIZE : Nat := 1024

/-- One bit-step of the CRC-16 update: shift left, and on a carry out of
bit 15 xor in the polynomial `0x1021`; the running value is kept in 16
bits. -/
def crc16Step (c : Nat) : Nat :=
  if c.testBit 15 then ((c <<< 1) ^^^ 0x1021) &&& 0xFFFF else (c <<< 1) &&& 0xFFFF

/-- CRC-16 update for one input byte: xor the byte into the high 8 bits of
the running value, then run 8 bit-steps. -/
def crc16Byte (c b : Nat) : Nat :=
  (List.range 8).foldl (fun acc _ => crc16Step acc) (c ^^^ ((b &&& 0xFF) <<< 8))

/-- Modelled from the spec: `VescFrame::CRC_TYPE` (`vesc_packet.cpp:15`) is
a parameter set for the external CRCpp library, declared in the missing
header.  The spec fixes the parameters: 16-bit CRC, polynomial `0x1021`,
initial value `0`, no input/output reflection, no final xor
(CCITT/XMODEM).  `CRC::Calculate` over a byte buffer with these parameters
is the following left-shifting CRC. -/
def crc16 (bytes : List Nat) : Nat :=
  bytes.foldl crc16Byte 0

/-- `VescFrame::VescFrame(int payload_size)` (`vesc_packet.cpp:17`): the
frame buffer as allocated and initialised by the constructor.  A `Buffer`
(`std::vector<uint8_t>`) of the full frame size is value-initialised to
zero; the constructor then writes the start marker, the 1- or 2-byte
length (big-endian for large frames, via `>> 8` and `& 0xFF`), and the
terminator `3` as the last byte.  Payload and CRC bytes stay zero for the
caller to fill. -/
def VescFrame (payload_size : Nat) : List Nat :=
  if payload_size < 256 then
    -- single byte payload size
    ((((List.replicate (VESC_MIN_FRAME_SIZE + payload_size) 0).set 0
        VESC_SOF_VAL_SMALL_FRAME).set 1 payload_size).set
      (VESC_MIN_FRAME_SIZE + payload_size - 1) VESC_EOF_VAL)
  else
    -- two byte payload size
    (((((List.replicate (VESC_MIN_FRAME_SIZE + 1 + payload_size) 0).set 0
        VESC_SOF_VAL_LARGE_FRAME).set 1 (payload_size >>> 8)).set 2
        (payload_size &&& 0xFF)).set
      (VESC_MIN_FRAME_SIZE + 1 + payload_size - 1) VESC_EOF_VAL)

/-- Header length of a frame for a given payload size: 2 bytes (marker +
1-byte length) for small frames, 3 bytes (marker + 2-byte length) for
large frames. -/
def headerLen (payload_size : Nat) : Nat :=
  if payload_size < 256 then 2 else 3

/-- Write the bytes `vals` into `l` at consecutive positions starting at
`off` (the successive `*(payload_.first + i) = v` stores of the packet
constructors). -/
def writeBytes (l : List Nat) (off : Nat) (vals : List Nat) : List Nat :=
  match vals with
  | [] => l
  | v :: vs => writeBytes (l.set off v) (off + 1) vs

/-- The payload region of a frame buffer: the sub-range
`[payload_.first, payload_.second)`, i.e. `payload_size` bytes starting
right after the header. -/
def payloadOf (f : List Nat) (hdr n : Nat) : List Nat :=
  (f.drop hdr).take n

/-- The shared encoder pattern of `VescPacket::VescPacket` plus every
outgoing-packet constructor (`vesc_packet.cpp:54`, `:113`, `:342`, `:353`,
`:372`, `:389`, `:406`, `:423`, `:442`): build the frame for
`1 + fields.length` payload bytes, store the command id as payload byte 0
and the field bytes after it, then compute the CRC over the payload region
and store it big-endian at `frame.end() - 3` and `frame.end() - 2`. -/
def buildPacket (id : Nat) (fields : List Nat) : List Nat :=
  let psize := 1 + fields.length
  let f := writeBytes (VescFrame psize) (headerLen psize) (id :: fields)
  let crc := crc16 (id :: fields)
  (f.set (f.length - 3) (crc >>> 8)).set (f.length - 2) (crc &&& 0xFF)

/-- Truncation toward zero of a rational, the semantics of
`static_cast<int32_t>(double)` on an in-range value: floor for
non-negative values, ceiling for negative ones. -/
def truncToInt (q : ℚ) : Int :=
  if 0 ≤ q then ⌊q⌋ else ⌈q⌉

/-- `static_cast<uint32_t>(v)` for a signed value `v`: reduction modulo
`2^32` (twos complement), yielding the unsigned bit pattern. -/
def toUInt32nat (v : Int) : Nat :=
  (v % (2 ^ 32 : Int)).toNat

/-- `static_cast<uint16_t>(v)` for a signed value `v`: reduction modulo
`2^16`. -/
def toUInt16nat (v : Int) : Nat :=
  (v % (2 ^ 16 : Int)).toNat

/-- The four field bytes of the 5-byte set-point packets
(`vesc_packet.cpp:359`-`:362` and the identical blocks in the other
constructors): the value is cast to `uint32_t`, then each byte is
extracted with a right shift and an `0xFF` mask, most significant byte
first. -/
def int32FieldBytes (v : Int) : List Nat :=
  let u := toUInt32nat v
  [(u >>> 24) &&& 0xFF, (u >>> 16) &&& 0xFF, (u >>> 8) &&& 0xFF, u &&& 0xFF]

/-- The two field bytes of the 3-byte servo packet
(`vesc_packet.cpp:448`-`:449`): cast to `uint16_t`, then shift/mask
extraction, most significant byte first. -/
def int16FieldBytes (v : Int) : List Nat :=
  let u := toUInt16nat v
  [(u >>> 8) &&& 0xFF, u &&& 0xFF]

/-- Modelled from the spec: the command-id enumeration lives in the missing
header `datatypes.hpp`.  The spec only says command ids are single-byte
values; the concrete numbers below are the standard VESC ids.  No claim
below depends on the numeric values, only on the ids being bytes. -/
def COMM_FW_VERSION : Nat := 0

/-- Modelled from the spec: see `COMM_FW_VERSION`. -/
def COMM_GET_VALUES : Nat := 4

/-- Modelled from the spec: see `COMM_FW_VERSION`. -/
def COMM_SET_DUTY : Nat := 5

/-- Modelled from the spec: see `COMM_FW_VERSION`. -/
def COMM_SET_CURRENT : Nat := 6

/-- Modelled from the spec: see `COMM_FW_VERSION`. -/
def COMM_SET_CURRENT_BRAKE : Nat := 7

/-- Modelled from the spec: see `COMM_FW_VERSION`. -/
def COMM_SET_RPM : Nat := 8

/-- Modelled from the spec: see `COMM_FW_VERSION`. -/
def COMM_SET_POS : Nat := 9

/-- Modelled from the spec: see `COMM_FW_VERSION`. -/
def COMM_SET_SERVO_POS : Nat := 12

/-- `VescPacketRequestFWVersion::VescPacketRequestFWVersion()`
(`vesc_packet.cpp:113`): 1-byte payload holding only the command id, CRC
appended. -/
def VescPacketRequestFWVersion : List Nat :=
  buildPacket COMM_FW_VERSION []

/-- `VescPacketRequestValues::VescPacketRequestValues()`
(`vesc_packet.cpp:342`): 1-byte payload holding only the command id, CRC
appended. -/
def VescPacketRequestValues : List Nat :=
  buildPacket COMM_GET_VALUES []

/-- `VescPacketSetDuty::VescPacketSetDuty(double duty)`
(`vesc_packet.cpp:353`): `int32_t v = static_cast<int32_t>(duty *
100000.0)`, then the shared 5-byte layout. -/
def VescPacketSetDuty (duty : ℚ) : List Nat :=
  buildPacket COMM_SET_DUTY (int32FieldBytes (truncToInt (duty * 100000)))

/-- `VescPacketSetCurrent::VescPacketSetCurrent(double current)`
(`vesc_packet.cpp:372`): `int32_t v = static_cast<int32_t>(current *
1000.0)`, then the shared 5-byte layout. -/
def VescPacketSetCurrent (current : ℚ) : List Nat :=
  buildPacket COMM_SET_CURRENT (int32FieldBytes (truncToInt (current * 1000)))

/-- `VescPacketSetCurrentBrake::VescPacketSetCurrentBrake`
(`vesc_packet.cpp:389`): scale factor 1000, shared 5-byte layout. -/
def VescPacketSetCurrentBrake (current_brake : ℚ) : List Nat :=
  buildPacket COMM_SET_CURRENT_BRAKE (int32FieldBytes (truncToInt (current_brake * 1000)))

/-- `VescPacketSetRPM::VescPacketSetRPM(double rpm)`
(`vesc_packet.cpp:406`): `int32_t v = static_cast<int32_t>(rpm)`, shared
5-byte layout. -/
def VescPacketSetRPM (rpm : ℚ) : List Nat :=
  buildPacket COMM_SET_RPM (int32FieldBytes (truncToInt rpm))

/-- `VescPacketSetPos::VescPacketSetPos(double pos)`
(`vesc_packet.cpp:423`): scale factor 1000000, shared 5-byte layout. -/
def VescPacketSetPos (pos : ℚ) : List Nat :=
  buildPacket COMM_SET_POS (int32FieldBytes (truncToInt (pos * 1000000)))

/-- `VescPacketSetServoPos::VescPacketSetServoPos(double servo_pos)`
(`vesc_packet.cpp:442`): `int16_t v = static_cast<int16_t>(servo_pos *
1000.0)`, 3-byte payload with a 2-byte big-endian field. -/
def VescPacketSetServoPos (servo_pos : ℚ) : List Nat :=
  buildPacket COMM_SET_SERVO_POS (int16FieldBytes (truncToInt (servo_pos * 1000)))

/-- Result of one frame-decode attempt at a supposed start marker. -/
inductive DecodeResult where
  | frame (total : Nat) (payload : List Nat)
  | needMore (n : Nat)
  | invalid
  deriving DecidableEq

/-- Modelled from the spec: `VescPacketFactory::createPacket`
(`vesc_packet_factory.cpp`, not among the sources) is the frame decoder
the scan loop in `vesc_interface.cpp:72` calls.  Per the spec
(section 4.1 `decode`): the buffer is known to start at a start marker;
the marker selects a 1- or 2-byte length; a declared payload length above
1024 is invalid; the exact total frame length is header + payload +
CRC(2) + terminator(1); with fewer bytes than the length field itself
needs, or than the total, the result is `needMore` with the shortfall;
otherwise the CRC over the payload slice and the terminator byte are
checked, mismatch giving `invalid` and match the fully formed frame.  The
returned shortfalls are always positive, matching the scanner test
`bytes_needed > 0`. -/
def decodeFrame (b : List Nat) : DecodeResult :=
  if b.getD 0 0 = VESC_SOF_VAL_SMALL_FRAME then
    if b.length < 2 then .needMore (VESC_MIN_FRAME_SIZE - b.length)
    else
      let len := b.getD 1 0
      let total := VESC_MIN_FRAME_SIZE + len
      if b.length < total then .needMore (total - b.length)
      else
        let payload := (b.drop 2).take len
        if b.getD (total - 3) 0 = crc16 payload >>> 8 ∧
            b.getD (total - 2) 0 = crc16 payload &&& 0xFF ∧
            b.getD (total - 1) 0 = VESC_EOF_VAL then
          .frame total payload
        else .invalid
  else if b.getD 0 0 = VESC_SOF_VAL_LARGE_FRAME then
    if b.length < 3 then .needMore (VESC_MIN_FRAME_SIZE + 1 - b.length)
    else
      let len := (b.getD 1 0) * 256 + b.getD 2 0
      if VESC_MAX_PAYLOAD_SIZE < len then .invalid
      else
        let total := VESC_MIN_FRAME_SIZE + 1 + len
        if b.length < total then .needMore (total - b.length)
        else
          let payload := (b.drop 3).take len
          if b.getD (total - 3) 0 = crc16 payload >>> 8 ∧
              b.getD (total - 2) 0 = crc16 payload &&& 0xFF ∧
              b.getD (total - 1) 0 = VESC_EOF_VAL then
            .frame total payload
          else .invalid
  else .invalid

/-- The scan loop of `VescInterface::Impl::packet_creation_thread`
(`vesc_interface.cpp:65`-`:88`), written with an explicit fuel so the
recursion is structural; `scanPass` supplies fuel that is never exhausted
(each iteration advances the cursor by at least one).  Per iteration: if
the cursor byte is a start marker, attempt a decode from the cursor; on a
full frame record its payload (the dispatch to the handler) and jump past
the frame; when more bytes are needed stop the pass at the cursor; on an
invalid frame fall through to the one-byte cursor advance, which also
handles non-marker bytes.  The result is the dispatched payloads in order
and the final cursor (the prefix the loop erases). -/
def scanLoop (fuel : Nat) (buf : List Nat) (c : Nat) (acc : List (List Nat)) :
    List (List Nat) × Nat :=
  match fuel with
  | 0 => (acc, c)
  | fuel + 1 =>
    if c < buf.length then
      if buf.getD c 0 = VESC_SOF_VAL_SMALL_FRAME ∨
          buf.getD c 0 = VESC_SOF_VAL_LARGE_FRAME then
        match decodeFrame (buf.drop c) with
        | .frame total payload => scanLoop fuel buf (c + total) (acc ++ [payload])
        | .needMore _ => (acc, c)
        | .invalid => scanLoop fuel buf (c + 1) acc
      else scanLoop fuel buf (c + 1) acc
    else (acc, c)

/-- One scan pass over the buffer starting at cursor `c`: `buf.length + 1`
fuel always suffices since every loop iteration advances the cursor. -/
def scanPass (buf : List Nat) (c : Nat) (acc : List (List Nat)) :
    List (List Nat) × Nat :=
  scanLoop (buf.length + 1) buf c acc

/-- The NUL-search loop of `VescPacketFWVersion::VescPacketFWVersion`
(`vesc_packet.cpp:73`): starting at payload offset 3, scan for the first
`0x00` byte.  The C++ loop has no bounds test at all: it dereferences
`*(payload_.first + 3 + i)` for ever-growing `i` until a zero byte is
found.  This model scans only within the payload and returns `none` when
the scan reaches the payload end without a NUL, which is exactly the
situation in which the C++ loop dereferences bytes past the payload
bounds (undefined behaviour), not a clean failure path of the source. -/
def fwScanNameLoop (fuel : Nat) (p : List Nat) (i : Nat) : Option Nat :=
  match fuel with
  | 0 => none
  | fuel + 1 =>
    if i < p.length then
      if p.getD i 0 = 0 then some i else fwScanNameLoop fuel p (i + 1)
    else none

/-- The NUL search of `fwScanNameLoop` with fuel that is never exhausted
(each step advances `i`, and the search is over at `i = p.length`). -/
def fwScanName (p : List Nat) (i : Nat) : Option Nat :=
  fwScanNameLoop (p.length + 1) p i

/-- The decoded fields of a firmware-version payload. -/
structure FwRec where
  major : Nat
  minor : Nat
  hwname : List Nat
  uuid : List Nat
  paired : Nat
  devVersion : Nat
  deriving DecidableEq

/-- `VescPacketFWVersion::VescPacketFWVersion` (`vesc_packet.cpp:67`):
`major_` and `minor_` are payload bytes 1 and 2; the name is read from
offset 3 up to the NUL terminator; the loop variable `j` ends up as the
name length `L` when `L >= 1` and as `1` when the name is empty (the loop
body, which assigns `j = i`, never runs, and the trailing `j++` turns the
initial 0 into 1); the remaining fields are read at the raw offsets
`3+j+1+u` (u = 0..11) for the uuid, `3+j+1+12` for the paired flag and
`3+j+2+12+1` for the device version.  The source reads these offsets with
unchecked pointer arithmetic; the bounds test here (and the `none` result
of `fwScanName`) only marks where the source would read out of bounds. -/
def fwDecode (p : List Nat) : Option FwRec :=
  match fwScanName p 3 with
  | none => none
  | some t =>
    let L := t - 3
    let j := if L = 0 then 1 else L
    if 3 + j + 2 + 12 + 1 < p.length then
      some
        { major := p.getD 1 0
          minor := p.getD 2 0
          hwname := (p.drop 3).take L
          uuid := (List.range 12).map (fun u => p.getD (3 + j + 1 + u) 0)
          paired := p.getD (3 + j + 1 + 12) 0
          devVersion := p.getD (3 + j + 2 + 12 + 1) 0 }
    else none

/-- `static_cast<int32_t>` of a 32-bit unsigned pattern: values at or
above `2^31` represent negatives. -/
def toInt32 (u : Nat) : Int :=
  if u < 2 ^ 31 then (u : Int) else (u : Int) - 2 ^ 32

/-- Big-endian recombination of four bytes, as in the Values accessors
(`(u8 << 24) + (u8 << 16) + (u8 << 8) + u8`). -/
def beVal32 (b0 b1 b2 b3 : Nat) : Nat :=
  ((b0 * 256 + b1) * 256 + b2) * 256 + b3

/-- `VescPacketValues::VescPacketValues` (`vesc_packet.cpp:123`): the
constructor body is empty — no payload-length validation of any kind is
performed, every raw frame is accepted. -/
def valuesCtorAccepts (_payload : List Nat) : Bool :=
  true

/-- `VescPacketValues::avg_vq` (`vesc_packet.cpp:329`): reads payload
bytes 69..72 as a big-endian `int32_t` and divides by `1e3`.  The source
dereferences `payload_.first + 69` .. `+ 72` unconditionally; the `get?`
lookups return `none` exactly when such a dereference lands past the
payload end. -/
def avg_vq (p : List Nat) : Option ℚ := do
  let b0 ← p.get? 69
  let b1 ← p.get? 70
  let b2 ← p.get? 71
  let b3 ← p.get? 72
  pure ((toInt32 (beVal32 b0 b1 b2 b3) : ℚ) / 1000)

/-- Events of the consumer loop relevant to the locking discipline. -/
inductive LockEv where
  | acq
  | rel
  | handler (payload : List Nat)
  deriving DecidableEq

/-- Lock/handler event trace of one body iteration of
`VescInterface::Impl::packet_creation_thread` (`vesc_interface.cpp:61`-
`:99`): `buffer_mutex_.lock()`, then the scan loop, which calls
`packet_handler_(packet)` inline for every decoded frame, then
`buffer_mutex_.unlock()`. -/
def drainPassTrace (buf : List Nat) : List LockEv :=
  [LockEv.acq] ++ (scanPass buf 0 []).1.map LockEv.handler ++ [LockEv.rel]

/-- Whether the event at index `i` of the trace happens while the lock is
held: strictly more acquisitions than releases precede it. -/
def lockHeldAt (tr : List LockEv) (i : Nat) : Prop :=
  ((tr.take i).count LockEv.rel) < ((tr.take i).count LockEv.acq)

/-- Big-endian byte decomposition of a 32-bit value, most significant byte
first (the reference form the encoder bytes are compared against). -/
def beBytes4 (u : Nat) : List Nat :=
  [u / 2 ^ 24 % 256, u / 2 ^ 16 % 256, u / 2 ^ 8 % 256, u % 256]

/-- Big-endian byte decomposition of a 16-bit value. -/
def beBytes2 (u : Nat) : List Nat :=
  [u / 2 ^ 8 % 256, u % 256]

/-- Big-endian recombination of a byte list. -/
def beValOfList (l : List Nat) : Nat :=
  l.foldl (fun a b => a * 256 + b) 0

/-- `static_cast<int16_t>` of a 16-bit unsigned pattern. -/
def toInt16 (u : Nat) : Int :=
  if u < 2 ^ 15 then (u : Int) else (u : Int) - 2 ^ 16

/-- The two CRC bytes and the terminator sit at the last three positions
of the frame, the CRC stored big-endian and computed over the payload
region of the frame (and over nothing else). -/
def crcPlaced (f : List Nat) (hdr n : Nat) : Prop :=
  f.getD (f.length - 3) 0 = crc16 (payloadOf f hdr n) >>> 8 ∧
  f.getD (f.length - 2) 0 = crc16 (payloadOf f hdr n) &&& 0xFF ∧
  f.getD (f.length - 1) 0 = VESC_EOF_VAL

/-- A firmware-version payload with a one-character name: command id,
major 3, minor 2, name byte `A`, NUL terminator at offset 4, 12
identifier bytes at offsets 5-16, paired flag `1` at offset 17, the byte
`77` at offset 18 (immediately after the paired flag) and `88` at offset
19. -/
def fwDemoPayload : List Nat :=
  [0, 3, 2, 65, 0, 10, 11, 12, 13, 14, 15, 16, 17, 18, 19, 20, 21, 1, 77, 88]

/-- A firmware-version payload containing no NUL byte from offset 3 to its
end. -/
def fwNoNulPayload : List Nat :=
  [0, 3, 2, 65, 66]

section StructuralLemmas

lemma replicate_set_last (m v : Nat) :
    (List.replicate (m + 1) (0 : Nat)).set m v = List.replicate m 0 ++ [v] := by
  induction m with
  | zero => rfl
  | succ m ih =>
    rw [List.replicate_succ, List.set_cons_succ, ih, List.replicate_succ]
    rfl

lemma writeBytes_cons (a : Nat) (l : List Nat) (off : Nat) (vals : List Nat) :
    writeBytes (a :: l) (off + 1) vals = a :: writeBytes l off vals := by
  induction vals generalizing a l off with
  | nil => rfl
  | cons v vs ih =>
    rw [writeBytes, List.set_cons_succ, writeBytes]
    exact ih a (l.set off v) (off + 1)

lemma writeBytes_zero (vals : List Nat) :
    ∀ l : List Nat, vals.length ≤ l.length →
      writeBytes l 0 vals = vals ++ l.drop vals.length := by
  induction vals with
  | nil => intro l _; simp [writeBytes]
  | cons v vs ih =>
    intro l hl
    match l with
    | [] => simp at hl
    | a :: l' =>
      rw [writeBytes, List.set_cons_zero, show (0 + 1 : Nat) = 0 + 1 from rfl,
        writeBytes_cons, ih l' (by simpa using hl)]
      simp

lemma set_append_left_length (l1 l2 : List Nat) (i v : Nat) :
    (l1 ++ l2).set (l1.length + i) v = l1 ++ l2.set i v := by
  induction l1 with
  | nil => simp
  | cons a l1 ih =>
    simp only [List.cons_append, List.length_cons]
    rw [show l1.length + 1 + i = (l1.length + i) + 1 from by omega,
      List.set_cons_succ, ih]

lemma set_cons_at (x : Nat) (xs : List Nat) (n a j : Nat) (h : j = n + 1) :
    (x :: xs).set j a = x :: xs.set n a := by
  rw [h, List.set_cons_succ]

lemma set_append_at (l1 l2 : List Nat) (i j v : Nat) (h : j = l1.length + i) :
    (l1 ++ l2).set j v = l1 ++ l2.set i v := by
  rw [h, set_append_left_length]

lemma writeBytes_cons_at (a : Nat) (l : List Nat) (off : Nat) (vals : List Nat)
    (j : Nat) (h : j = off + 1) :
    writeBytes (a :: l) j vals = a :: writeBytes l off vals := by
  rw [h, writeBytes_cons]

lemma set_append3_first (pre : List Nat) (a b c v j : Nat) (h : j = pre.length) :
    (pre ++ [a, b, c]).set j v = pre ++ [v, b, c] := by
  rw [set_append_at pre [a, b, c] 0 j v (by omega), List.set_cons_zero]

lemma set_append3_second (pre : List Nat) (a b c v j : Nat) (h : j = pre.length + 1) :
    (pre ++ [a, b, c]).set j v = pre ++ [a, v, c] := by
  rw [set_append_at pre [a, b, c] 1 j v (by omega), List.set_cons_succ,
    List.set_cons_zero]

lemma getD_cons_succ (a : Nat) (l : List Nat) (i d : Nat) :
    (a :: l).getD (i + 1) d = l.getD i d := by
  simp [List.getD]

lemma VescFrame_small (n : Nat) (h : n < 256) :
    VescFrame n =
      VESC_SOF_VAL_SMALL_FRAME :: n :: (List.replicate (n + 2) 0 ++ [VESC_EOF_VAL]) := by
  rw [VescFrame, if_pos h]
  have h5 : VESC_MIN_FRAME_SIZE + n = ((n + 3) + 1) + 1 := by
    rw [VESC_MIN_FRAME_SIZE]; omega
  rw [h5, List.replicate_succ, List.replicate_succ, List.set_cons_zero,
    List.set_cons_succ, List.set_cons_zero]
  rw [show ((n + 3) + 1) + 1 - 1 = ((n + 2) + 1) + 1 from by omega,
    List.set_cons_succ, List.set_cons_succ,
    show (n + 2) + 1 = (n + 2) + 1 from rfl]
  rw [replicate_set_last]

lemma VescFrame_large (n : Nat) (h : ¬ n < 256) :
    VescFrame n =
      VESC_SOF_VAL_LARGE_FRAME :: (n >>> 8) :: (n &&& 0xFF) ::
        (List.replicate (n + 2) 0 ++ [VESC_EOF_VAL]) := by
  rw [VescFrame, if_neg h]
  have h6 : VESC_MIN_FRAME_SIZE + 1 + n = (((n + 3) + 1) + 1) + 1 := by
    rw [VESC_MIN_FRAME_SIZE]; omega
  rw [h6, List.replicate_succ, List.replicate_succ, List.replicate_succ,
    List.set_cons_zero, List.set_cons_succ, List.set_cons_zero,
    List.set_cons_succ, List.set_cons_succ, List.set_cons_zero]
  rw [show ((((n + 3) + 1) + 1) + 1) - 1 = (((n + 2) + 1) + 1) + 1 from by omega,
    List.set_cons_succ, List.set_cons_succ, List.set_cons_succ,
    replicate_set_last]

lemma buildPacket_eq (id : Nat) (fields : List Nat) (h : 1 + fields.length < 256) :
    buildPacket id fields =
      VESC_SOF_VAL_SMALL_FRAME :: (1 + fields.length) :: id :: fields ++
        [crc16 (id :: fields) >>> 8, crc16 (id :: fields) &&& 0xFF, VESC_EOF_VAL] := by
  have hhdr : headerLen (1 + fields.length) = 2 := by
    rw [headerLen, if_pos h]
  have hframe := VescFrame_small (1 + fields.length) h
  rw [buildPacket]
  simp only [hhdr, hframe]
  rw [writeBytes_cons_at _ _ 1 _ 2 rfl, writeBytes_cons_at _ _ 0 _ 1 rfl,
    writeBytes_zero (id :: fields)
      (List.replicate (1 + fields.length + 2) 0 ++ [VESC_EOF_VAL])
      (by simp; omega)]
  rw [List.drop_append_of_le_length (by simp; omega), List.drop_replicate]
  rw [show 1 + fields.length + 2 - (id :: fields).length = 2 from by simp; omega]
  rw [show List.replicate 2 (0 : Nat) ++ [VESC_EOF_VAL] = [0, 0, VESC_EOF_VAL] from rfl]
  rw [show VESC_SOF_VAL_SMALL_FRAME :: (1 + fields.length) ::
      ((id :: fields) ++ [0, 0, VESC_EOF_VAL])
      = (VESC_SOF_VAL_SMALL_FRAME :: (1 + fields.length) :: id :: fields) ++
        [0, 0, VESC_EOF_VAL] from by simp]
  rw [show ((VESC_SOF_VAL_SMALL_FRAME :: (1 + fields.length) :: id :: fields) ++
      [0, 0, VESC_EOF_VAL]).length = fields.length + 6 from by simp]
  rw [set_append3_first _ _ _ _ _ _ (by simp only [List.length_cons]; omega)]
  rw [set_append3_second _ _ _ _ _ _ (by simp only [List.length_cons]; omega)]

lemma buildPacket_payload (id : Nat) (fields : List Nat)
    (h : 1 + fields.length < 256) :
    payloadOf (buildPacket id fields) 2 (1 + fields.length) = id :: fields := by
  rw [buildPacket_eq id fields h, payloadOf]
  rw [show VESC_SOF_VAL_SMALL_FRAME :: (1 + fields.length) :: id :: fields ++
      [crc16 (id :: fields) >>> 8, crc16 (id :: fields) &&& 0xFF, VESC_EOF_VAL]
      = VESC_SOF_VAL_SMALL_FRAME :: (1 + fields.length) ::
        ((id :: fields) ++
          [crc16 (id :: fields) >>> 8, crc16 (id :: fields) &&& 0xFF, VESC_EOF_VAL])
      from by simp]
  rw [List.drop_succ_cons, List.drop_succ_cons, List.drop_zero,
    show (1 + fields.length) = (id :: fields).length from by simp; omega,
    List.take_left]

lemma buildPacket_length (id : Nat) (fields : List Nat)
    (h : 1 + fields.length < 256) :
    (buildPacket id fields).length = fields.length + 6 := by
  rw [buildPacket_eq id fields h]
  simp

lemma crcPlaced_buildPacket (id : Nat) (fields : List Nat)
    (h : 1 + fields.length < 256) :
    crcPlaced (buildPacket id fields) 2 (1 + fields.length) := by
  rw [crcPlaced, buildPacket_payload id fields h, buildPacket_length id fields h,
    buildPacket_eq id fields h]
  rw [show VESC_SOF_VAL_SMALL_FRAME :: (1 + fields.length) :: id :: fields ++
      [crc16 (id :: fields) >>> 8, crc16 (id :: fields) &&& 0xFF, VESC_EOF_VAL]
      = (VESC_SOF_VAL_SMALL_FRAME :: (1 + fields.length) :: id :: fields) ++
        [crc16 (id :: fields) >>> 8, crc16 (id :: fields) &&& 0xFF, VESC_EOF_VAL]
      from by simp]
  have hl : (VESC_SOF_VAL_SMALL_FRAME :: (1 + fields.length) :: id :: fields).length
      = fields.length + 3 := by simp
  refine ⟨?_, ?_, ?_⟩
  · rw [List.getD_append_right _ _ _ _ (by omega), hl]
    rw [show fields.length + 6 - 3 - (fields.length + 3) = 0 from by omega]
    rfl
  · rw [List.getD_append_right _ _ _ _ (by omega), hl]
    rw [show fields.length + 6 - 2 - (fields.length + 3) = 1 from by omega]
    rfl
  · rw [List.getD_append_right _ _ _ _ (by omega), hl]
    rw [show fields.length + 6 - 1 - (fields.length + 3) = 2 from by omega]
    rfl

lemma buildPacket_payload' (id : Nat) (fields : List Nat) (n : Nat)
    (h : 1 + fields.length < 256) (hn : n = 1 + fields.length) :
    payloadOf (buildPacket id fields) 2 n = id :: fields := by
  rw [hn, buildPacket_payload id fields h]

lemma crcPlaced_buildPacket' (id : Nat) (fields : List Nat) (n : Nat)
    (h : 1 + fields.length < 256) (hn : n = 1 + fields.length) :
    crcPlaced (buildPacket id fields) 2 n := by
  rw [hn]; exact crcPlaced_buildPacket id fields h

lemma and255_eq_mod (u : Nat) : u &&& 0xFF = u % 256 := by
  have h := Nat.and_pow_two_sub_one_eq_mod u 8
  norm_num at h
  exact h

lemma shift_and255_eq_digit (u k : Nat) : (u >>> k) &&& 0xFF = u / 2 ^ k % 256 := by
  rw [Nat.shiftRight_eq_div_pow, and255_eq_mod]

lemma int32FieldBytes_eq (v : Int) :
    int32FieldBytes v = beBytes4 (toUInt32nat v) := by
  simp only [int32FieldBytes, beBytes4, and255_eq_mod, Nat.shiftRight_eq_div_pow]

lemma int16FieldBytes_eq (v : Int) :
    int16FieldBytes v = beBytes2 (toUInt16nat v) := by
  simp only [int16FieldBytes, beBytes2, and255_eq_mod, Nat.shiftRight_eq_div_pow]

lemma int32FieldBytes_length (v : Int) : (int32FieldBytes v).length = 4 := by
  simp [int32FieldBytes]

lemma int16FieldBytes_length (v : Int) : (int16FieldBytes v).length = 2 := by
  simp [int16FieldBytes]

lemma beValOfList_beBytes4 (u : Nat) (h : u < 2 ^ 32) :
    beValOfList (beBytes4 u) = u := by
  simp only [beValOfList, beBytes4, List.foldl]
  omega

lemma beValOfList_beBytes2 (u : Nat) (h : u < 2 ^ 16) :
    beValOfList (beBytes2 u) = u := by
  simp only [beValOfList, beBytes2, List.foldl]
  omega

lemma int32_bytes_recompose_neg (v : Int) (hneg : v < 0) (hlo : -2 ^ 31 ≤ v) :
    toInt32 (beValOfList (int32FieldBytes v)) = v := by
  rw [int32FieldBytes_eq, beValOfList_beBytes4 _ (by rw [toUInt32nat]; omega)]
  rw [toInt32, toUInt32nat, if_neg (by omega)]
  omega

lemma int16_bytes_recompose_neg (v : Int) (hneg : v < 0) (hlo : -2 ^ 15 ≤ v) :
    toInt16 (beValOfList (int16FieldBytes v)) = v := by
  rw [int16FieldBytes_eq, beValOfList_beBytes2 _ (by rw [toUInt16nat]; omega)]
  rw [toInt16, toUInt16nat, if_neg (by omega)]
  omega

end StructuralLemmas

section ClaimTheoremsEncoding

/-- C6: for payload sizes 0–255 the frame constructor writes start marker 2
and a 1-byte length equal to the payload size; for 256–1024 it writes
start marker 3 and a 2-byte big-endian length; in both cases the last
byte is the terminator 3 and the total frame length is
header (2 or 3) + payload + 2 CRC bytes + 1 terminator byte. -/
theorem frame_header_layout (n : Nat) (_hmax : n ≤ VESC_MAX_PAYLOAD_SIZE) :
    (VescFrame n).getLast? = some VESC_EOF_VAL ∧
    (n ≤ 255 →
      (VescFrame n).getD 0 0 = VESC_SOF_VAL_SMALL_FRAME ∧
      (VescFrame n).getD 1 0 = n ∧
      (VescFrame n).length = 2 + n + 2 + 1) ∧
    (256 ≤ n →
      (VescFrame n).getD 0 0 = VESC_SOF_VAL_LARGE_FRAME ∧
      (VescFrame n).getD 1 0 = n / 256 ∧
      (VescFrame n).getD 2 0 = n % 256 ∧
      (VescFrame n).length = 3 + n + 2 + 1) := by
  by_cases h : n < 256
  · rw [VescFrame_small n h]
    constructor
    · rw [show VESC_SOF_VAL_SMALL_FRAME :: n :: (List.replicate (n + 2) 0 ++
          [VESC_EOF_VAL]) = (VESC_SOF_VAL_SMALL_FRAME :: n ::
          List.replicate (n + 2) 0) ++ [VESC_EOF_VAL] from by simp,
        List.getLast?_concat]
    constructor
    · intro _
      refine ⟨rfl, rfl, ?_⟩
      simp only [List.length_cons, List.length_append, List.length_replicate,
        List.length_singleton, List.length_nil]
      omega
    · intro h256
      exact absurd h256 (by omega)
  · rw [VescFrame_large n h]
    constructor
    · rw [show VESC_SOF_VAL_LARGE_FRAME :: (n >>> 8) :: (n &&& 0xFF) ::
          (List.replicate (n + 2) 0 ++ [VESC_EOF_VAL])
          = (VESC_SOF_VAL_LARGE_FRAME :: (n >>> 8) :: (n &&& 0xFF) ::
            List.replicate (n + 2) 0) ++ [VESC_EOF_VAL] from by simp,
        List.getLast?_concat]
    constructor
    · intro h255
      exact absurd h255 (by omega)
    · intro _
      refine ⟨rfl, ?_, ?_, ?_⟩
      · show n >>> 8 = n / 256
        rw [Nat.shiftRight_eq_div_pow]
      · show n &&& 0xFF = n % 256
        exact and255_eq_mod n
      · simp only [List.length_cons, List.length_append, List.length_replicate,
          List.length_singleton, List.length_nil]
        omega

/-- Witness for C6: the layout theorem evaluated at the concrete payload
sizes 10 (small frame) and 300 (large frame). -/
theorem frame_header_layout_witness :
    ((VescFrame 10).getD 0 0 = VESC_SOF_VAL_SMALL_FRAME ∧
      (VescFrame 10).getD 1 0 = 10 ∧ (VescFrame 10).length = 2 + 10 + 2 + 1) ∧
    ((VescFrame 300).getD 0 0 = VESC_SOF_VAL_LARGE_FRAME ∧
      (VescFrame 300).getD 1 0 = 300 / 256 ∧
      (VescFrame 300).getD 2 0 = 300 % 256 ∧
      (VescFrame 300).length = 3 + 300 + 2 + 1) :=
  ⟨(frame_header_layout 10 (by decide)).2.1 (by decide),
   (frame_header_layout 300 (by decide)).2.2 (by decide)⟩

/-- C2: every outgoing command packet carries, in the two bytes immediately
before the terminator, the big-endian 16-bit CRC (polynomial `0x1021`,
init 0, unreflected, no final xor — the `crc16` model) computed over
exactly the payload region of the frame. -/
theorem encoder_crc_placement : ∀ q : ℚ,
    crcPlaced (VescPacketSetDuty q) 2 5 ∧
    crcPlaced (VescPacketSetCurrent q) 2 5 ∧
    crcPlaced (VescPacketSetCurrentBrake q) 2 5 ∧
    crcPlaced (VescPacketSetRPM q) 2 5 ∧
    crcPlaced (VescPacketSetPos q) 2 5 ∧
    crcPlaced (VescPacketSetServoPos q) 2 3 ∧
    crcPlaced VescPacketRequestFWVersion 2 1 ∧
    crcPlaced VescPacketRequestValues 2 1 := by
  intro q
  unfold VescPacketSetDuty VescPacketSetCurrent VescPacketSetCurrentBrake
    VescPacketSetRPM VescPacketSetPos VescPacketSetServoPos
    VescPacketRequestFWVersion VescPacketRequestValues
  refine ⟨?_, ?_, ?_, ?_, ?_, ?_, ?_, ?_⟩
  · exact crcPlaced_buildPacket' _ _ 5 (by rw [int32FieldBytes_length]; decide)
      (by rw [int32FieldBytes_length])
  · exact crcPlaced_buildPacket' _ _ 5 (by rw [int32FieldBytes_length]; decide)
      (by rw [int32FieldBytes_length])
  · exact crcPlaced_buildPacket' _ _ 5 (by rw [int32FieldBytes_length]; decide)
      (by rw [int32FieldBytes_length])
  · exact crcPlaced_buildPacket' _ _ 5 (by rw [int32FieldBytes_length]; decide)
      (by rw [int32FieldBytes_length])
  · exact crcPlaced_buildPacket' _ _ 5 (by rw [int32FieldBytes_length]; decide)
      (by rw [int32FieldBytes_length])
  · exact crcPlaced_buildPacket' _ _ 3 (by rw [int16FieldBytes_length]; decide)
      (by rw [int16FieldBytes_length])
  · exact crcPlaced_buildPacket' _ _ 1 (by decide) (by decide)
  · exact crcPlaced_buildPacket' _ _ 1 (by decide) (by decide)

set_option maxRecDepth 8000 in
set_option maxHeartbeats 1000000 in
/-- Counterexample for C5: the claim predicts payload bytes
`[id, 0x00, 0x00, 0x30, 0xD8]` for `set current = 12.5`, but
`12.5 × 1000 = 12500 = 0x30D4`, so the encoder writes `0xD4` as the last
payload byte, not `0xD8`. -/
theorem set_current_12p5_cex :
    ¬ (payloadOf (VescPacketSetCurrent (25 / 2 : ℚ)) 2 5 =
        [COMM_SET_CURRENT, 0x00, 0x00, 0x30, 0xD8]) := by
  have h : truncToInt ((25 / 2 : ℚ) * 1000) = 12500 := by
    rw [truncToInt]; norm_num
  unfold VescPacketSetCurrent
  rw [h]
  decide

set_option maxRecDepth 8000 in
set_option maxHeartbeats 1000000 in
/-- C5 (amended): encoding `set current = 12.5` produces the payload bytes
`[command_id, 0x00, 0x00, 0x30, 0xD4]` — 12500 as a big-endian 32-bit
integer — and the two CRC bytes (frame positions 7 and 8, immediately
before the terminator of the 10-byte frame) hold the CRC computed over
exactly those 5 payload bytes. -/
theorem set_current_12p5_payload :
    payloadOf (VescPacketSetCurrent (25 / 2 : ℚ)) 2 5 =
      [COMM_SET_CURRENT, 0x00, 0x00, 0x30, 0xD4] ∧
    (VescPacketSetCurrent (25 / 2 : ℚ)).getD 7 0 =
      crc16 [COMM_SET_CURRENT, 0x00, 0x00, 0x30, 0xD4] >>> 8 ∧
    (VescPacketSetCurrent (25 / 2 : ℚ)).getD 8 0 =
      crc16 [COMM_SET_CURRENT, 0x00, 0x00, 0x30, 0xD4] &&& 0xFF ∧
    (VescPacketSetCurrent (25 / 2 : ℚ)).getD 9 0 = VESC_EOF_VAL ∧
    (VescPacketSetCurrent (25 / 2 : ℚ)).length = 10 := by
  have h : truncToInt ((25 / 2 : ℚ) * 1000) = 12500 := by
    rw [truncToInt]; norm_num
  unfold VescPacketSetCurrent
  rw [h]
  refine ⟨by decide, by decide, by decide, by decide, by decide⟩

set_option maxRecDepth 8000 in
set_option maxHeartbeats 1000000 in
/-- Counterexample for C7: at duty `1/65536` the scaled value is
`100000/65536 ≈ 1.526`, whose nearest integer is 2, but the encoder
truncates toward zero and writes 1; so the payload is not the big-endian
encoding of `round(value × 100000)`. -/
theorem set_duty_round_cex :
    ¬ (payloadOf (VescPacketSetDuty (1 / 65536 : ℚ)) 2 5 =
        COMM_SET_DUTY :: beBytes4 (toUInt32nat (round ((1 / 65536 : ℚ) * 100000)))) := by
  have hr : round ((1 / 65536 : ℚ) * 100000) = 2 := by
    rw [round_eq]; norm_num
  have ht : truncToInt ((1 / 65536 : ℚ) * 100000) = 1 := by
    rw [truncToInt]; norm_num
  unfold VescPacketSetDuty
  rw [hr, ht]
  decide

/-- C7 (amended): the set-duty-cycle encoder writes, as a big-endian int32
at payload bytes 1–4, the value `trunc(value × 100000)` — truncation
toward zero (the semantics of `static_cast<int32_t>`), not rounding to
nearest — reduced modulo `2^32`. -/
theorem set_duty_writes_trunc : ∀ q : ℚ,
    payloadOf (VescPacketSetDuty q) 2 5 =
      COMM_SET_DUTY :: beBytes4 (toUInt32nat (truncToInt (q * 100000))) := by
  intro q
  unfold VescPacketSetDuty
  rw [buildPacket_payload' _ _ 5 (by norm_num [int32FieldBytes_length])
      (by norm_num [int32FieldBytes_length]),
    int32FieldBytes_eq]

/-- C10: for every set-command encoder (duty, current, current brake, RPM,
position, servo position), whenever the truncated scaled integer `v` is
negative (and within the signed range), the field bytes written are the
big-endian encoding of `v mod 2^32` (`v mod 2^16` for servo position),
i.e. the twos-complement representation, and that representation
determines `v` again — negative set-points are representable on the
wire. -/
theorem negative_setpoints_twos_complement : ∀ q : ℚ,
    (truncToInt (q * 100000) < 0 → -2 ^ 31 ≤ truncToInt (q * 100000) →
      (payloadOf (VescPacketSetDuty q) 2 5).drop 1
        = beBytes4 ((truncToInt (q * 100000) % (2 ^ 32 : Int)).toNat) ∧
      toInt32 (beValOfList ((payloadOf (VescPacketSetDuty q) 2 5).drop 1))
        = truncToInt (q * 100000)) ∧
    (truncToInt (q * 1000) < 0 → -2 ^ 31 ≤ truncToInt (q * 1000) →
      (payloadOf (VescPacketSetCurrent q) 2 5).drop 1
        = beBytes4 ((truncToInt (q * 1000) % (2 ^ 32 : Int)).toNat) ∧
      toInt32 (beValOfList ((payloadOf (VescPacketSetCurrent q) 2 5).drop 1))
        = truncToInt (q * 1000)) ∧
    (truncToInt (q * 1000) < 0 → -2 ^ 31 ≤ truncToInt (q * 1000) →
      (payloadOf (VescPacketSetCurrentBrake q) 2 5).drop 1
        = beBytes4 ((truncToInt (q * 1000) % (2 ^ 32 : Int)).toNat) ∧
      toInt32 (beValOfList ((payloadOf (VescPacketSetCurrentBrake q) 2 5).drop 1))
        = truncToInt (q * 1000)) ∧
    (truncToInt q < 0 → -2 ^ 31 ≤ truncToInt q →
      (payloadOf (VescPacketSetRPM q) 2 5).drop 1
        = beBytes4 ((truncToInt q % (2 ^ 32 : Int)).toNat) ∧
      toInt32 (beValOfList ((payloadOf (VescPacketSetRPM q) 2 5).drop 1))
        = truncToInt q) ∧
    (truncToInt (q * 1000000) < 0 → -2 ^ 31 ≤ truncToInt (q * 1000000) →
      (payloadOf (VescPacketSetPos q) 2 5).drop 1
        = beBytes4 ((truncToInt (q * 1000000) % (2 ^ 32 : Int)).toNat) ∧
      toInt32 (beValOfList ((payloadOf (VescPacketSetPos q) 2 5).drop 1))
        = truncToInt (q * 1000000)) ∧
    (truncToInt (q * 1000) < 0 → -2 ^ 15 ≤ truncToInt (q * 1000) →
      (payloadOf (VescPacketSetServoPos q) 2 3).drop 1
        = beBytes2 ((truncToInt (q * 1000) % (2 ^ 16 : Int)).toNat) ∧
      toInt16 (beValOfList ((payloadOf (VescPacketSetServoPos q) 2 3).drop 1))
        = truncToInt (q * 1000)) := by
  intro q
  refine ⟨?_, ?_, ?_, ?_, ?_, ?_⟩
  case _ =>
    intro hneg hlo
    unfold VescPacketSetDuty
    rw [buildPacket_payload' _ _ 5 (by norm_num [int32FieldBytes_length])
        (by norm_num [int32FieldBytes_length]), List.drop_one, List.tail_cons]
    exact ⟨int32FieldBytes_eq _, int32_bytes_recompose_neg _ hneg hlo⟩
  case _ =>
    intro hneg hlo
    unfold VescPacketSetCurrent
    rw [buildPacket_payload' _ _ 5 (by norm_num [int32FieldBytes_length])
        (by norm_num [int32FieldBytes_length]), List.drop_one, List.tail_cons]
    exact ⟨int32FieldBytes_eq _, int32_bytes_recompose_neg _ hneg hlo⟩
  case _ =>
    intro hneg hlo
    unfold VescPacketSetCurrentBrake
    rw [buildPacket_payload' _ _ 5 (by norm_num [int32FieldBytes_length])
        (by norm_num [int32FieldBytes_length]), List.drop_one, List.tail_cons]
    exact ⟨int32FieldBytes_eq _, int32_bytes_recompose_neg _ hneg hlo⟩
  case _ =>
    intro hneg hlo
    unfold VescPacketSetRPM
    rw [buildPacket_payload' _ _ 5 (by norm_num [int32FieldBytes_length])
        (by norm_num [int32FieldBytes_length]), List.drop_one, List.tail_cons]
    exact ⟨int32FieldBytes_eq _, int32_bytes_recompose_neg _ hneg hlo⟩
  case _ =>
    intro hneg hlo
    unfold VescPacketSetPos
    rw [buildPacket_payload' _ _ 5 (by norm_num [int32FieldBytes_length])
        (by norm_num [int32FieldBytes_length]), List.drop_one, List.tail_cons]
    exact ⟨int32FieldBytes_eq _, int32_bytes_recompose_neg _ hneg hlo⟩
  case _ =>
    intro hneg hlo
    unfold VescPacketSetServoPos
    rw [buildPacket_payload' _ _ 3 (by norm_num [int16FieldBytes_length])
        (by norm_num [int16FieldBytes_length]), List.drop_one, List.tail_cons]
    exact ⟨int16FieldBytes_eq _, int16_bytes_recompose_neg _ hneg hlo⟩

/-- Witness for C10: the theorem applied at the concrete input `-3/2`,
whose truncated scaled integers are negative for all six encoders. -/
theorem negative_setpoints_twos_complement_witness :
    ((payloadOf (VescPacketSetDuty (-3 / 2 : ℚ)) 2 5).drop 1
        = beBytes4 ((truncToInt ((-3 / 2 : ℚ) * 100000) % (2 ^ 32 : Int)).toNat) ∧
      toInt32 (beValOfList ((payloadOf (VescPacketSetDuty (-3 / 2 : ℚ)) 2 5).drop 1))
        = truncToInt ((-3 / 2 : ℚ) * 100000)) ∧
    ((payloadOf (VescPacketSetCurrent (-3 / 2 : ℚ)) 2 5).drop 1
        = beBytes4 ((truncToInt ((-3 / 2 : ℚ) * 1000) % (2 ^ 32 : Int)).toNat) ∧
      toInt32 (beValOfList ((payloadOf (VescPacketSetCurrent (-3 / 2 : ℚ)) 2 5).drop 1))
        = truncToInt ((-3 / 2 : ℚ) * 1000)) ∧
    ((payloadOf (VescPacketSetRPM (-3 / 2 : ℚ)) 2 5).drop 1
        = beBytes4 ((truncToInt (-3 / 2 : ℚ) % (2 ^ 32 : Int)).toNat) ∧
      toInt32 (beValOfList ((payloadOf (VescPacketSetRPM (-3 / 2 : ℚ)) 2 5).drop 1))
        = truncToInt (-3 / 2 : ℚ)) ∧
    ((payloadOf (VescPacketSetServoPos (-3 / 2 : ℚ)) 2 3).drop 1
        = beBytes2 ((truncToInt ((-3 / 2 : ℚ) * 1000) % (2 ^ 16 : Int)).toNat) ∧
      toInt16 (beValOfList ((payloadOf (VescPacketSetServoPos (-3 / 2 : ℚ)) 2 3).drop 1))
        = truncToInt ((-3 / 2 : ℚ) * 1000)) := by
  have h100000 : truncToInt ((-3 / 2 : ℚ) * 100000) = -150000 := by
    rw [truncToInt]; norm_num [Int.ceil_eq_iff]
  have h1000 : truncToInt ((-3 / 2 : ℚ) * 1000) = -1500 := by
    rw [truncToInt]; norm_num [Int.ceil_eq_iff]
  have h1 : truncToInt (-3 / 2 : ℚ) = -1 := by
    rw [truncToInt]; norm_num [Int.ceil_eq_iff]
  have h := negative_setpoints_twos_complement (-3 / 2 : ℚ)
  exact ⟨h.1 (by rw [h100000]; norm_num) (by rw [h100000]; norm_num),
    h.2.1 (by rw [h1000]; norm_num) (by rw [h1000]; norm_num),
    h.2.2.2.1 (by rw [h1]; norm_num) (by rw [h1]; norm_num),
    h.2.2.2.2.2 (by rw [h1000]; norm_num) (by rw [h1000]; norm_num)⟩

end ClaimTheoremsEncoding

section ScanLemmas

lemma decodeFrame_total_pos (b : List Nat) (t : Nat) (p : List Nat)
    (h : decodeFrame b = .frame t p) : 1 ≤ t := by
  simp only [decodeFrame] at h
  split_ifs at h <;> simp_all [VESC_MIN_FRAME_SIZE] <;> omega

/-- One-step unfolding of the scan loop. -/
lemma scanLoop_succ (fuel : Nat) (buf : List Nat) (c : Nat)
    (acc : List (List Nat)) :
    scanLoop (fuel + 1) buf c acc =
      if c < buf.length then
        if buf.getD c 0 = VESC_SOF_VAL_SMALL_FRAME ∨
            buf.getD c 0 = VESC_SOF_VAL_LARGE_FRAME then
          match decodeFrame (buf.drop c) with
          | .frame total payload => scanLoop fuel buf (c + total) (acc ++ [payload])
          | .needMore _ => (acc, c)
          | .invalid => scanLoop fuel buf (c + 1) acc
        else scanLoop fuel buf (c + 1) acc
      else (acc, c) := rfl

lemma scanLoop_congr : ∀ (f1 f2 : Nat) (buf : List Nat) (c : Nat)
    (acc : List (List Nat)), buf.length - c < f1 → buf.length - c < f2 →
    scanLoop f1 buf c acc = scanLoop f2 buf c acc := by
  intro f1
  induction f1 with
  | zero => intro f2 buf c acc h1 h2; omega
  | succ f1 ih =>
    intro f2 buf c acc h1 h2
    match f2 with
    | 0 => omega
    | f2 + 1 =>
      simp only [scanLoop]
      by_cases hc : c < buf.length
      · simp only [hc, if_true]
        by_cases hm : buf.getD c 0 = VESC_SOF_VAL_SMALL_FRAME ∨
            buf.getD c 0 = VESC_SOF_VAL_LARGE_FRAME
        · simp only [hm, if_true]
          rcases hdec : decodeFrame (buf.drop c) with ⟨total, payload⟩ | n | _
          · have htot := decodeFrame_total_pos _ _ _ hdec
            exact ih f2 buf (c + total) (acc ++ [payload]) (by omega) (by omega)
          · rfl
          · exact ih f2 buf (c + 1) acc (by omega) (by omega)
        · simp only [hm, if_false]
          exact ih f2 buf (c + 1) acc (by omega) (by omega)
      · simp only [hc, if_false]

lemma scanLoop_acc_mem : ∀ (fuel : Nat) (buf : List Nat) (c : Nat)
    (acc : List (List Nat)) (x : List Nat), x ∈ acc →
    x ∈ (scanLoop fuel buf c acc).1 := by
  intro fuel
  induction fuel with
  | zero => intro buf c acc x hx; exact hx
  | succ fuel ih =>
    intro buf c acc x hx
    simp only [scanLoop]
    by_cases hc : c < buf.length
    · simp only [hc, if_true]
      by_cases hm : buf.getD c 0 = VESC_SOF_VAL_SMALL_FRAME ∨
          buf.getD c 0 = VESC_SOF_VAL_LARGE_FRAME
      · simp only [hm, if_true]
        rcases hdec : decodeFrame (buf.drop c) with ⟨total, payload⟩ | n | _
        · exact ih buf (c + total) (acc ++ [payload]) x (by simp [hx])
        · exact hx
        · exact ih buf (c + 1) acc x hx
      · simp only [hm, if_false]
        exact ih buf (c + 1) acc x hx
    · simp only [hc, if_false]
      exact hx

lemma scanPass_invalid_step (buf : List Nat) (c : Nat) (acc : List (List Nat))
    (hc : c < buf.length)
    (hm : buf.getD c 0 = VESC_SOF_VAL_SMALL_FRAME ∨
      buf.getD c 0 = VESC_SOF_VAL_LARGE_FRAME)
    (hinv : decodeFrame (buf.drop c) = .invalid) :
    scanPass buf c acc = scanPass buf (c + 1) acc := by
  rw [scanPass, scanPass]
  have hstep : scanLoop (buf.length + 1) buf c acc
      = scanLoop buf.length buf (c + 1) acc := by
    rw [scanLoop_succ, if_pos hc, if_pos hm, hinv]
  rw [hstep]
  exact scanLoop_congr _ _ _ _ _ (by omega) (by omega)

lemma scanPass_skip_step (buf : List Nat) (c : Nat) (acc : List (List Nat))
    (hc : c < buf.length)
    (hm : ¬ (buf.getD c 0 = VESC_SOF_VAL_SMALL_FRAME ∨
      buf.getD c 0 = VESC_SOF_VAL_LARGE_FRAME)) :
    scanPass buf c acc = scanPass buf (c + 1) acc := by
  rw [scanPass, scanPass]
  have hstep : scanLoop (buf.length + 1) buf c acc
      = scanLoop buf.length buf (c + 1) acc := by
    rw [scanLoop_succ, if_pos hc, if_neg hm]
  rw [hstep]
  exact scanLoop_congr _ _ _ _ _ (by omega) (by omega)

lemma scanPass_needMore_stop (buf : List Nat) (c : Nat) (acc : List (List Nat))
    (n : Nat) (hc : c < buf.length)
    (hm : buf.getD c 0 = VESC_SOF_VAL_SMALL_FRAME ∨
      buf.getD c 0 = VESC_SOF_VAL_LARGE_FRAME)
    (hnm : decodeFrame (buf.drop c) = .needMore n) :
    scanPass buf c acc = (acc, c) := by
  rw [scanPass, scanLoop_succ, if_pos hc, if_pos hm, hnm]

lemma scanPass_frame_step (buf : List Nat) (c : Nat) (acc : List (List Nat))
    (total : Nat) (payload : List Nat) (hc : c < buf.length)
    (hm : buf.getD c 0 = VESC_SOF_VAL_SMALL_FRAME ∨
      buf.getD c 0 = VESC_SOF_VAL_LARGE_FRAME)
    (hdec : decodeFrame (buf.drop c) = .frame total payload) :
    scanPass buf c acc = scanPass buf (c + total) (acc ++ [payload]) := by
  rw [scanPass, scanPass]
  have htot := decodeFrame_total_pos _ _ _ hdec
  have hstep : scanLoop (buf.length + 1) buf c acc
      = scanLoop buf.length buf (c + total) (acc ++ [payload]) := by
    rw [scanLoop_succ, if_pos hc, if_pos hm, hdec]
  rw [hstep]
  exact scanLoop_congr _ _ _ _ _ (by omega) (by omega)

lemma scanPass_reaches (buf : List Nat) (p total : Nat) (payload : List Nat)
    (hp : p < buf.length)
    (hmp : buf.getD p 0 = VESC_SOF_VAL_SMALL_FRAME ∨
      buf.getD p 0 = VESC_SOF_VAL_LARGE_FRAME)
    (hdec : decodeFrame (buf.drop p) = .frame total payload)
    (hprior : ∀ q, q < p →
      (buf.getD q 0 = VESC_SOF_VAL_SMALL_FRAME ∨
        buf.getD q 0 = VESC_SOF_VAL_LARGE_FRAME) →
      decodeFrame (buf.drop q) = .invalid) :
    ∀ (d c : Nat) (acc : List (List Nat)), p - c = d → c ≤ p →
      payload ∈ (scanPass buf c acc).1 := by
  intro d
  induction d with
  | zero =>
    intro c acc hd hc
    have hcp : c = p := by omega
    subst hcp
    rw [scanPass_frame_step buf c acc total payload hp hmp hdec]
    exact scanLoop_acc_mem _ _ _ _ _ (by simp)
  | succ d ih =>
    intro c acc hd hc
    have hclen : c < buf.length := by omega
    by_cases hmc : buf.getD c 0 = VESC_SOF_VAL_SMALL_FRAME ∨
        buf.getD c 0 = VESC_SOF_VAL_LARGE_FRAME
    · rw [scanPass_invalid_step buf c acc hclen hmc (hprior c (by omega) hmc)]
      exact ih (c + 1) acc (by omega) (by omega)
    · rw [scanPass_skip_step buf c acc hclen hmc]
      exact ih (c + 1) acc (by omega) (by omega)

end ScanLemmas

section ClaimTheoremsScanner

/-- C1: in every scan pass, at a cursor whose byte is a start marker, an
`invalid` decode advances the cursor by exactly one byte and scanning
continues (the pass from `c` equals the pass from `c + 1`); a
`needMore` decode stops the pass at the cursor; consequently, when a valid
frame starts at position `p` and every earlier marker position decodes as
`invalid`, the frame payload is still dispatched by the pass — a corrupt
frame never prevents decoding of a subsequent valid frame. -/
theorem scan_resynchronization :
    (∀ (buf : List Nat) (c : Nat) (acc : List (List Nat)),
      c < buf.length →
      (buf.getD c 0 = VESC_SOF_VAL_SMALL_FRAME ∨
        buf.getD c 0 = VESC_SOF_VAL_LARGE_FRAME) →
      decodeFrame (buf.drop c) = .invalid →
      scanPass buf c acc = scanPass buf (c + 1) acc) ∧
    (∀ (buf : List Nat) (c : Nat) (acc : List (List Nat)) (n : Nat),
      c < buf.length →
      (buf.getD c 0 = VESC_SOF_VAL_SMALL_FRAME ∨
        buf.getD c 0 = VESC_SOF_VAL_LARGE_FRAME) →
      decodeFrame (buf.drop c) = .needMore n →
      scanPass buf c acc = (acc, c)) ∧
    (∀ (buf : List Nat) (p total : Nat) (payload : List Nat),
      p < buf.length →
      (buf.getD p 0 = VESC_SOF_VAL_SMALL_FRAME ∨
        buf.getD p 0 = VESC_SOF_VAL_LARGE_FRAME) →
      decodeFrame (buf.drop p) = .frame total payload →
      (∀ q, q < p →
        (buf.getD q 0 = VESC_SOF_VAL_SMALL_FRAME ∨
          buf.getD q 0 = VESC_SOF_VAL_LARGE_FRAME) →
        decodeFrame (buf.drop q) = .invalid) →
      payload ∈ (scanPass buf 0 []).1) :=
  ⟨fun buf c acc hc hm hinv => scanPass_invalid_step buf c acc hc hm hinv,
   fun buf c acc n hc hm hnm => scanPass_needMore_stop buf c acc n hc hm hnm,
   fun buf p total payload hp hm hdec hprior =>
     scanPass_reaches buf p total payload hp hm hdec hprior p 0 []
       (by omega) (by omega)⟩

/-- Witness for C1: a large-frame marker with an out-of-range declared
length decodes as invalid and the pass steps one byte; a truncated small
frame stops the pass; a garbage prefix whose marker position decodes as
invalid does not prevent the request-values frame
`[2, 1, 4, 64, 132, 3]` behind it from being dispatched. -/
theorem scan_resynchronization_witness :
    scanPass [3, 255, 255, 0, 0, 0] 0 [] = scanPass [3, 255, 255, 0, 0, 0] 1 [] ∧
    scanPass [2, 5] 0 [] = ([], 0) ∧
    [4] ∈ (scanPass [3, 255, 255, 2, 1, 4, 64, 132, 3] 0 []).1 :=
  ⟨scan_resynchronization.1 [3, 255, 255, 0, 0, 0] 0 [] (by decide) (by decide)
      (by decide),
   scan_resynchronization.2.1 [2, 5] 0 [] 8 (by decide) (by decide) (by decide),
   scan_resynchronization.2.2 [3, 255, 255, 2, 1, 4, 64, 132, 3] 3 6 [4]
      (by decide) (by decide) (by decide) (by decide)⟩

lemma count_map_handler_acq (l : List (List Nat)) :
    (l.map LockEv.handler).count LockEv.acq = 0 := by
  induction l with
  | nil => rfl
  | cons x l ih => simp [List.count_cons, ih]

lemma count_map_handler_rel (l : List (List Nat)) :
    (l.map LockEv.handler).count LockEv.rel = 0 := by
  induction l with
  | nil => rfl
  | cons x l ih => simp [List.count_cons, ih]

lemma count_take_map_handler_acq (l : List (List Nat)) (j : Nat) :
    ((l.map LockEv.handler).take j).count LockEv.acq = 0 := by
  rw [← List.map_take]
  exact count_map_handler_acq _

lemma count_take_map_handler_rel (l : List (List Nat)) (j : Nat) :
    ((l.map LockEv.handler).take j).count LockEv.rel = 0 := by
  rw [← List.map_take]
  exact count_map_handler_rel _

/-- Counterexample for C9: for the buffer holding the single valid frame
`[2, 1, 4, 64, 132, 3]`, the consumer trace has the handler invocation at
index 1, strictly between the lock acquisition and its release — the
handler runs while the receive-buffer lock is held, so the claim that it
runs with the lock not held is false. -/
theorem handler_not_under_lock_cex :
    (drainPassTrace [2, 1, 4, 64, 132, 3]).get? 1
      = some (LockEv.handler [4]) ∧
    lockHeldAt (drainPassTrace [2, 1, 4, 64, 132, 3]) 1 :=
  ⟨by decide, by rw [lockHeldAt]; decide⟩

/-- C9 (amended): every handler invocation in a drain-pass trace happens
while the receive-buffer lock IS held (`buffer_mutex_.lock()` at
`vesc_interface.cpp:61` precedes the scan loop and
`buffer_mutex_.unlock()` at `:99` follows it), so a blocking handler
stalls appends until the pass completes. -/
theorem handler_invoked_with_lock_held :
    ∀ (buf : List Nat) (i : Nat) (payload : List Nat),
      (drainPassTrace buf).get? i = some (LockEv.handler payload) →
      lockHeldAt (drainPassTrace buf) i := by
  intro buf i payload hget
  rw [drainPassTrace] at hget ⊢
  rw [show [LockEv.acq] ++ (scanPass buf 0 []).1.map LockEv.handler ++ [LockEv.rel]
      = LockEv.acq :: ((scanPass buf 0 []).1.map LockEv.handler ++ [LockEv.rel])
      from by simp] at hget ⊢
  match i with
  | 0 => simp at hget
  | j + 1 =>
    rw [List.get?_cons_succ] at hget
    have hj : j < ((scanPass buf 0 []).1.map LockEv.handler).length := by
      by_contra hge
      push_neg at hge
      rw [List.get?_append_right hge] at hget
      rcases hsub : j - ((scanPass buf 0 []).1.map LockEv.handler).length
        with _ | k
      · rw [hsub] at hget
        simp at hget
      · rw [hsub] at hget
        simp at hget
    rw [lockHeldAt, List.take_succ_cons,
      List.take_append_of_le_length (Nat.le_of_lt hj)]
    simp [List.count_cons, count_take_map_handler_acq,
      count_take_map_handler_rel]

/-- Witness for C9 (amended): the theorem applied to the handler event at
index 1 of the trace for the single-frame buffer. -/
theorem handler_invoked_with_lock_held_witness :
    lockHeldAt (drainPassTrace [2, 1, 4, 64, 132, 3]) 1 :=
  handler_invoked_with_lock_held [2, 1, 4, 64, 132, 3] 1 [4] (by decide)

end ClaimTheoremsScanner

section ClaimTheoremsDecoding

/-- C3 (code evaluated at the failing input): on a firmware-version
payload with no NUL byte from offset 3 to the end, the name-scanning loop
of `VescPacketFWVersion::VescPacketFWVersion` (`vesc_packet.cpp:73`,
which has no bounds test) leaves the payload bounds — `fwScanName`
returns `none`, marking the point where the C++ dereferences past the
payload — and the model records the out-of-bounds access rather than any
clean failure path of the source, which has none. -/
theorem fw_no_nul_scan_oob :
    fwScanName fwNoNulPayload 3 = none ∧ fwDecode fwNoNulPayload = none := by
  decide

/-- C4 (code evaluated at the failing input): the `VescPacketValues`
constructor accepts a 1-byte payload without any length validation, and
`avg_vq` dereferences payload bytes 69-72, which lie beyond that
payload end (`none` marks the out-of-bounds access of the raw pointer
reads); the required minimum length 73 is never checked. -/
theorem values_short_payload_oob :
    valuesCtorAccepts [4] = true ∧
    ([4] : List Nat).length < 73 ∧
    avg_vq [4] = none := by
  refine ⟨rfl, by decide, by decide⟩

/-- Counterexample for C8: in `fwDemoPayload` the NUL terminator is at
offset `t = 4` and the paired flag is decoded from offset 17 = `t + 13`
(immediately after the 12-byte identifier), but the device-version byte
is decoded from offset 19 = `t + 15`, not from offset 18 immediately
after the paired flag: the byte 77 at offset 18 is skipped and the
decoder returns 88. -/
theorem fw_devversion_cex :
    (fwDecode fwDemoPayload).map FwRec.paired
      = some (fwDemoPayload.getD 17 0) ∧
    ¬ ((fwDecode fwDemoPayload).map FwRec.devVersion
      = some (fwDemoPayload.getD 18 0)) ∧
    (fwDecode fwDemoPayload).map FwRec.devVersion
      = some (fwDemoPayload.getD 19 0) := by
  decide

/-- C8 (amended): for a decoded firmware-version payload with a non-empty
name whose NUL terminator sits at offset `t` (with enough bytes after
it), the 12-byte identifier occupies offsets `t+1` .. `t+12` immediately
after the terminator, the paired flag is the byte at `t+13` immediately
after the identifier, and the device version is read from offset `t+15`
— two bytes after the paired flag, skipping the byte at `t+14`. -/
theorem fw_offsets_after_name (p : List Nat) (t : Nat)
    (hscan : fwScanName p 3 = some t) (ht : 4 ≤ t)
    (hlen : t + 15 < p.length) :
    fwDecode p = some
      { major := p.getD 1 0
        minor := p.getD 2 0
        hwname := (p.drop 3).take (t - 3)
        uuid := (List.range 12).map (fun u => p.getD (t + 1 + u) 0)
        paired := p.getD (t + 13) 0
        devVersion := p.getD (t + 15) 0 } := by
  simp only [fwDecode, hscan]
  have hj : (if t - 3 = 0 then 1 else t - 3) = t - 3 := if_neg (by omega)
  simp only [hj]
  rw [if_pos (by omega)]
  simp only [show 3 + (t - 3) = t from by omega]

/-- Witness for C8 (amended): the offset theorem applied to
`fwDemoPayload`, whose terminator offset is `t = 4`. -/
theorem fw_offsets_after_name_witness :
    fwDecode fwDemoPayload = some
      { major := fwDemoPayload.getD 1 0
        minor := fwDemoPayload.getD 2 0
        hwname := (fwDemoPayload.drop 3).take (4 - 3)
        uuid := (List.range 12).map (fun u => fwDemoPayload.getD (4 + 1 + u) 0)
        paired := fwDemoPayload.getD (4 + 13) 0
        devVersion := fwDemoPayload.getD (4 + 15) 0 } :=
  fw_offsets_after_name fwDemoPayload 4 (by decide) (by decide) (by decide)

end ClaimTheoremsDecoding

end VescDriver
